import Mathlib

/-!
A shallow embedding of the parts of the DLWP repository that the verified
properties below refer to: `DLWP/model/extensions.py` (class
`TimeSeriesEstimator`) and `DLWP/model/preprocessing.py`
(`delete_nan_samples`, `Preprocessor.data_to_samples`).

Modelling conventions: machine floats are modelled exactly by `ℚ`; a float
value that may be NaN is `Option ℚ`, with `none` standing for NaN.  Integer
quantities (time coordinates, shapes, indices) are `Int`/`Nat`.  numpy arrays
are modelled as lists or as index functions with explicit extents, and numpy
axis operations are translated to explicit list/index manipulation.
-/

namespace DLWP

/-- Number of entries of numpy `arange(start, stop, step)` for an integer,
positive `step`: `ceil((stop - start) / step)`, clamped at zero. -/
def arangeLen (start stop step : Int) : Nat :=
  if 0 < step then ((stop - start).toNat + step.toNat - 1) / step.toNat else 0

/-- numpy `arange(start, stop, step)` for an integer, positive `step`:
entry `i` is `start + i * step`. -/
def arange (start stop step : Int) : List Int :=
  (List.range (arangeLen start stop step)).map fun i : Nat => start + (i : Int) * step

/-- `extensions.py` lines 151-163: the step-size-reconciliation of
`TimeSeriesEstimator.predict`.  Returns `(keep_inputs, es, in_times)` computed
from the model input time-step count `IN`, the output time-step count `OUT`
and the `prefer_first_times` flag. -/
def stepModeParams (IN OUT : Nat) (prefer_first_times : Bool) :
    Bool × Nat × List Int :=
  if OUT ≤ IN then
    (true, OUT, (List.range IN).map fun i : Nat => (i : Int) - ((IN : Int) - (OUT : Int)))
  else if prefer_first_times then
    (false, IN, (List.range IN).map fun i : Nat => (i : Int))
  else
    (false, OUT, (List.range IN).map fun i : Nat => (i : Int) + ((OUT : Int) - (IN : Int)))

/-- `extensions.py` lines 222-227 (``discard`` mode feedback): the time-step
slice of one sample/feature series `r` of the model output (length `OUT`) that
is written back into the rolling input buffer.  With `prefer_first_times` the
source takes `r_da[...][:, :IN]`, otherwise `r_da[...][:, -IN:]`. -/
def seedTimes (IN : Nat) (prefer_first_times : Bool) (r : List ℚ) : List ℚ :=
  if prefer_first_times then r.take IN else r.drop (r.length - IN)

/-- The geometry the data generator supplies to `predict` (`generator.ds` and
`generator.convolution_shape`): number of samples, flat feature channels, and
the spatial grid extents. -/
structure GenInfo where
  nsamp : Nat
  nf : Nat
  nlat : Nat
  nlon : Nat

/-- The labelled array `predict` returns, reduced to what the claims are
about: the array shape, the leading `f_hour` coordinate, and the dimension
names. -/
structure LabeledResult where
  shape : List Nat
  f_hour : List Int
  dims : List String

/-- numpy `transpose((0, 2, 1, 3, 4, 5))` on a 6-axis shape. -/
def transpose021 : List Nat → List Nat
  | [a, b, c, d, e, f] => [a, c, b, d, e, f]
  | l => l

/-- numpy `reshape((-1,) + shape[2:])`: fold the two leading axes into one. -/
def collapse01 : List Nat → List Nat
  | a :: b :: r => (a * b) :: r
  | l => l

/-- numpy `result[:, :, :k]`: truncate axis 2 to at most `k` entries. -/
def truncAxis2 (k : Nat) : List Nat → List Nat
  | [a, b, c, d, e, f] => [a, b, min k c, d, e, f]
  | l => l

/-- `xr.DataArray(result, coords=..., dims=...)`: xarray refuses coordinates
whose length conflicts with the corresponding axis; we model the check for the
leading (`f_hour`) coordinate, the only one the claims are about. -/
def mkDataArray (shape : List Nat) (fh : List Int) (dims : List String) :
    Except String LabeledResult :=
  if fh.length = shape.headD 0 then Except.ok ⟨shape, fh, dims⟩
  else Except.error "conflicting sizes for dimension"

/-- `TimeSeriesEstimator.predict` (`extensions.py` lines 128-263), reduced to
the label/shape behaviour of the returned array.  `modelF` stands for the
trained model's `predict` and `gen` for the generator; the model's values
affect only the numeric contents of the result, never its shape or
coordinates, so both are opaque parameters here.  `dt` is the sample spacing
`ds.sample[1] - ds.sample[0]`.  The accumulator shape `[steps, nsamp, OUT,
nf, nlat, nlon]` is the line-231 reshape of the forecast array; the caller
guarantees (per the generator contract) that the generator data matches it. -/
def predict (modelF : List ℚ → List ℚ) (gen : Unit → GenInfo) (IN OUT : Nat)
    (dt steps : Int) (impute keep_time_dim prefer_first_times : Bool) :
    Except String LabeledResult :=
  if steps < 1 then Except.error "must use positive integer for steps"
  else
    let g := gen ()
    let mode := stepModeParams IN OUT prefer_first_times
    let keep_inputs := mode.1
    let es := mode.2.1
    let k := steps.toNat
    let acc : List Nat := [k, g.nsamp, OUT, g.nf, g.nlat, g.nlon]
    if keep_time_dim then
      mkDataArray acc (arange dt (((k * es + 1 : Nat) : Int) * dt) ((es : Int) * dt))
        ["f_hour", "time", "time_step", "varlev", "lat", "lon"]
    else
      let r1 := if !keep_inputs && prefer_first_times then truncAxis2 es acc else acc
      let r2 := collapse01 (transpose021 r1)
      mkDataArray r2 (arange dt (((k * es + 1 : Nat) : Int) * dt) dt)
        ["f_hour", "time", "varlev", "lat", "lon"]

/-- The raw predictor buffer `p` of `predict` just before the step loop:
axis 0 is `sample` (extent `ns`), axis 1 is `time_step` (extent `nt`), and
axis 2 stands for the flattened (feature, lat, lon) block (extent `nf`). -/
structure Arr3 where
  ns : Nat
  nt : Nat
  nf : Nat
  val : Nat → Nat → Nat → ℚ

/-- `extensions.py` line 180: `p_mean = p.mean(axis=0)`, the mean over the
sample axis, one value per (time step, feature) position. -/
def meanAxis0 (a : Arr3) : Nat → Nat → ℚ := fun t f =>
  ((List.range a.ns).map fun s => a.val s t f).sum / (a.ns : ℚ)

/-- numpy basic slice assignment `a[-k:] = v` on the leading axis: positions
`a.ns - k ≤ s < a.ns` receive `v (s - (a.ns - k))`, everything else is kept. -/
def assignTailAxis0 (a : Arr3) (k : Nat) (v : Nat → Nat → Nat → ℚ) : Arr3 :=
  { a with
    val := fun s t f =>
      if a.ns - k ≤ s ∧ s < a.ns then v (s - (a.ns - k)) t f else a.val s t f }

/-- `extensions.py` line 207:
`p_da[-es:] = np.concatenate([p_mean[np.newaxis, ...]] * es)` — the imputation
write of the step loop.  The assigned value is `es` stacked copies of
`p_mean`, so it does not depend on the position along the assigned axis. -/
def imputeStep (p : Arr3) (pMean : Nat → Nat → ℚ) (es : Nat) : Arr3 :=
  assignTailAxis0 p es fun _ t f => pMean t f

/-- A concrete 2-sample, 2-time-step, 1-feature buffer used as test input:
sample 0 is constant 0 and sample 1 is constant 2, so the sample mean is 1
everywhere. -/
def cBuf : Arr3 :=
  ⟨2, 2, 1, fun s _ _ => if s = 0 then 0 else 2⟩

/-- `Preprocessor.data_to_samples` (`preprocessing.py` lines 95, 157-163),
the sample-building fill loop.  `N` is the number of available time points,
`vars` the selected variable names, and `ds v i` the selected source grid of
variable `v` at time index `i` (`ds[var].isel(time=i)`); the grid type `G`
stands for one (level, lat, lon) block.  The loop runs `s` over
`range(len(all_dates) - 1)` and sets `predictors[s, v] = ds[var][s]` and
`targets[s, v] = ds[var][s + 1]`. -/
def data_to_samples {V G : Type} (N : Nat) (vars : List V) (ds : V → Nat → G) :
    List (List G) × List (List G) :=
  ((List.range (N - 1)).map fun s => vars.map fun v => ds v s,
   (List.range (N - 1)).map fun s => vars.map fun v => ds v (s + 1))

/-- `extensions.py` lines 107-111: `lev, var = np.meshgrid(levels, variables)`
followed by row-major flattening and zipping.  Entry `k` of the flattened
grid is `(variables[k / len(levels)], levels[k % len(levels)])`. -/
def meshgridVarlev {V L : Type} (dv : V) (dl : L) (vars : List V)
    (levs : List L) : List (V × L) :=
  (List.range (vars.length * levs.length)).map fun k =>
    (vars.getD (k / levs.length) dv, levs.getD (k % levs.length) dl)

/-- `extensions.py` line 270: `pd.MultiIndex.from_product((var, lev))`, the
variable-major Cartesian product used to unstack the compound `varlev`
axis back into separate `variable` and `level` axes. -/
def multiIndexFromProduct {V L : Type} (vars : List V) (levs : List L) :
    List (V × L) :=
  vars.flatMap fun v => levs.map fun l => (v, l)

/-- The compound feature label synthesized for one (variable, level) pair:
`'/'.join([v, str(l)])`, with the level already rendered as a string. -/
def varlevLabel (v : String) (l : String) : String := v ++ "/" ++ l

/-- `extensions.py` lines 70-71 and 113-118: the overlap set
`_outputs_in_inputs`, the output-selection labels that also occur in the
input selection (`[v for v in output_sel if v in input_sel]`). -/
def outputs_in_inputs {V : Type} [DecidableEq V] (osel isel : List V) : List V :=
  osel.filter fun v => decide (v ∈ isel)

/-- The netCDF large-fill cutoff `1e30` of `delete_nan_samples`. -/
def bigFill : ℚ := 10 ^ 30

/-- `preprocessing.py` lines 33-34 applied to one value:
`x[(x > 1e30) | (x < -1e30)] = nan`.  NaN compares false, so NaN stays NaN. -/
def bigMask (v : Option ℚ) : Option ℚ :=
  match v with
  | none => none
  | some q => if bigFill < q ∨ q < -bigFill then none else some q

/-- `preprocessing.py` lines 33-34 applied to a whole (sample-major,
flattened) array. -/
def applyLargeFill (a : List (List (Option ℚ))) : List (List (Option ℚ)) :=
  a.map fun row => row.map bigMask

/-- `np.isnan(row).any()`: whether a flattened sample row holds a NaN. -/
def rowHasNan (row : List (Option ℚ)) : Bool :=
  row.any fun v => v.isNone

/-- `np.mean(np.isnan(row)) >= threshold` for one flattened sample row; numpy
yields NaN for the mean of an empty row, and `NaN >= t` is false. -/
def rowFracBad (row : List (Option ℚ)) (threshold : ℚ) : Bool :=
  if row.length = 0 then false
  else decide (threshold ≤ ((row.countP fun v => v.isNone : Nat) : ℚ) / (row.length : ℚ))

/-- Whether one flattened sample row triggers removal, for the given
threshold mode (`preprocessing.py` lines 39-44). -/
def rowBad (threshold : Option ℚ) (row : List (Option ℚ)) : Bool :=
  match threshold with
  | none => rowHasNan row
  | some t => rowFracBad row t

/-- `preprocessing.py` lines 39-45: sample index `i` lands in `bad_ind` iff
its row in either array triggers removal.  Out-of-range indices read as empty
rows, which never trigger. -/
def isBad (p t : List (List (Option ℚ))) (threshold : Option ℚ) (i : Nat) : Bool :=
  rowBad threshold (p.getD i []) || rowBad threshold (t.getD i [])

/-- `preprocessing.py` line 30: a `None` threshold is always accepted, a
numeric one must satisfy `0 <= threshold <= 1`. -/
def validThr (threshold : Option ℚ) : Bool :=
  match threshold with
  | none => true
  | some t => decide (0 ≤ t ∧ t ≤ 1)

/-- `np.delete(a, bad_ind, axis=0)`: keep, in order, exactly the rows whose
index is not flagged. -/
def deleteRows (a : List (List (Option ℚ))) (bad : Nat → Bool) :
    List (List (Option ℚ)) :=
  ((List.range a.length).filter fun i => !bad i).map fun i => a.getD i []

/-- `delete_nan_samples` (`preprocessing.py` lines 20-50).  Each array is a
list of flattened per-sample rows (the source reshapes to
`(n_samples, -1)` before testing).  The Python function mutates its numpy
arguments in place when `large_fill_value` is set, so the embedding passes
the state explicitly: the first component of the result is the caller's
(predictors, targets) pair after the call, the second the returned reduced
pair (or the raised error).  The threshold check precedes the mutation, as in
the source. -/
def delete_nan_samples (p t : List (List (Option ℚ))) (large_fill_value : Bool)
    (threshold : Option ℚ) :
    (List (List (Option ℚ)) × List (List (Option ℚ))) ×
      Except String (List (List (Option ℚ)) × List (List (Option ℚ))) :=
  if validThr threshold then
    let p1 := if large_fill_value then applyLargeFill p else p
    let t1 := if large_fill_value then applyLargeFill t else t
    ((p1, t1),
      Except.ok (deleteRows p1 (isBad p1 t1 threshold),
                 deleteRows t1 (isBad p1 t1 threshold)))
  else
    ((p, t), Except.error "threshold must be between 0 and 1")

/-- A trivial stand-in for the trained model's `predict`, used to instantiate
the estimator claims at concrete inputs. -/
def idModel : List ℚ → List ℚ := id

/-- A concrete generator geometry: 4 samples, 3 feature channels, 2x2 grid. -/
def demoGen : Unit → GenInfo := fun _ => ⟨4, 3, 2, 2⟩

/-- A concrete raw dataset for the sample-builder claims: variable `v` at
time `i` has grid value `10 * v + i`. -/
def demoDs : Nat → Nat → Nat := fun v i => 10 * v + i

/-! ## Helper lemmas -/

/-- Reading a list back from its index table reproduces the list. -/
theorem range_map_getD {α : Type} (d : α) (l : List α) :
    (List.range l.length).map (fun i => l.getD i d) = l := by
  apply List.ext_getElem (by simp)
  intro i h1 h2
  simp only [List.getElem_map, List.getElem_range]
  exact List.getD_eq_getElem l d h2

/-- `getD` of a mapped index table evaluates the function, inside the range. -/
theorem getD_range_map {α : Type} (d : α) (f : Nat → α) {n i : Nat} (hi : i < n) :
    ((List.range n).map f).getD i d = f i := by
  rw [List.getD_eq_getElem _ d (by simpa using hi)]
  simp

/-- Number of entries of `arange` over a span of `n` whole positive steps. -/
theorem arangeLen_add_mul (start d : Int) (hd : 1 ≤ d) (n : Nat) :
    arangeLen start (start + (n : Int) * d) d = n := by
  unfold arangeLen
  rw [if_pos (by omega)]
  have h1 : start + (n : Int) * d - start = (n : Int) * d := by ring
  rw [h1]
  have h2 : ((n : Int) * d).toNat = n * d.toNat := by
    rcases Int.eq_ofNat_of_zero_le (by omega : (0 : Int) ≤ d) with ⟨m, rfl⟩
    rw [← Int.natCast_mul, Int.toNat_natCast, Int.toNat_natCast]
  rw [h2]
  have hdpos : 0 < d.toNat := by omega
  have h3 : n * d.toNat + d.toNat - 1 = d.toNat * n + (d.toNat - 1) := by
    rw [Nat.mul_comm]; omega
  rw [h3, Nat.mul_add_div hdpos, Nat.div_eq_of_lt (by omega)]
  omega

/-- `arange` over a span of `n` whole positive steps, in closed form. -/
theorem arange_add_mul (start d : Int) (hd : 1 ≤ d) (n : Nat) :
    arange start (start + (n : Int) * d) d =
      (List.range n).map fun i : Nat => start + (i : Int) * d := by
  unfold arange
  rw [arangeLen_add_mul start d hd n]

/-- The collapsed `f_hour` coordinate `arange(dt, (n+1)*dt, dt)` is the
sequence `dt, 2*dt, ..., n*dt`. -/
theorem arange_collapsed (dt : Int) (hdt : 1 ≤ dt) (n : Nat) :
    arange dt (((n + 1 : Nat) : Int) * dt) dt =
      (List.range n).map fun i : Nat => ((i : Int) + 1) * dt := by
  have hstop : ((n + 1 : Nat) : Int) * dt = dt + (n : Int) * dt := by push_cast; ring
  rw [hstop, arange_add_mul dt dt hdt n]
  have h : (fun i : Nat => dt + (i : Int) * dt) = fun i : Nat => ((i : Int) + 1) * dt := by
    funext i; ring
  rw [h]

/-- The `keep_time_dim` coordinate `arange(dt, (k*es+1)*dt, es*dt)` has
exactly `k` entries. -/
theorem arangeLen_ktd (dt : Int) (hdt : 1 ≤ dt) (k es : Nat) (hes : 1 ≤ es) :
    (arange dt (((k * es + 1 : Nat) : Int) * dt) ((es : Int) * dt)).length = k := by
  have hstep : (1 : Int) ≤ (es : Int) * dt := by
    have : (1 : Int) * 1 ≤ (es : Int) * dt := by
      apply mul_le_mul (by exact_mod_cast hes) hdt (by norm_num) (by positivity)
    simpa using this
  have hstop : ((k * es + 1 : Nat) : Int) * dt = dt + (k : Int) * ((es : Int) * dt) := by
    push_cast; ring
  rw [hstop]
  unfold arange
  rw [arangeLen_add_mul dt ((es : Int) * dt) hstep k]
  simp

/-- Unfold the effective step size of `stepModeParams` into its three cases. -/
theorem stepModeParams_es (IN OUT : Nat) (pft : Bool) :
    (stepModeParams IN OUT pft).2.1 =
      if OUT ≤ IN then OUT else if pft = true then IN else OUT := by
  unfold stepModeParams
  by_cases h : OUT ≤ IN
  · simp [h]
  · by_cases hp : pft = true <;> simp [h, hp]

/-- Unfold the `keep_inputs` flag of `stepModeParams`. -/
theorem stepModeParams_fst (IN OUT : Nat) (pft : Bool) :
    (stepModeParams IN OUT pft).1 = decide (OUT ≤ IN) := by
  unfold stepModeParams
  by_cases h : OUT ≤ IN
  · simp [h]
  · by_cases hp : pft = true <;> simp [h, hp]

/-- Pairing a fixed first component over an index table is a plain map. -/
theorem map_fst_pair {V L : Type} (dl : L) (v : V) (levs : List L) :
    (List.range levs.length).map (fun k => (v, levs.getD k dl)) =
      levs.map fun l => (v, l) := by
  conv_rhs => rw [← range_map_getD dl levs]
  rw [List.map_map]
  rfl

/-- The row-major flattened meshgrid order used by the Feature Selector agrees,
entry by entry, with the variable-major product order used by
`MultiIndex.from_product`. -/
theorem meshgridVarlev_eq_product {V L : Type} (dv : V) (dl : L)
    (vars : List V) (levs : List L) :
    meshgridVarlev dv dl vars levs = multiIndexFromProduct vars levs := by
  induction vars with
  | nil => simp [meshgridVarlev, multiIndexFromProduct]
  | cons v vs ih =>
    unfold meshgridVarlev multiIndexFromProduct
    have hlen : (v :: vs).length * levs.length =
        levs.length + vs.length * levs.length := by
      simp [List.length_cons]; ring
    rw [hlen, List.range_add, List.map_append, List.map_map, List.flatMap_cons]
    congr 1
    · have h1 : ∀ k ∈ List.range levs.length,
          ((v :: vs).getD (k / levs.length) dv, levs.getD (k % levs.length) dl)
            = (v, levs.getD k dl) := by
        intro k hk
        rw [List.mem_range] at hk
        rw [Nat.div_eq_of_lt hk, Nat.mod_eq_of_lt hk]
        rfl
      exact (List.map_congr_left h1).trans (map_fst_pair dl v levs)
    · have h2 : ∀ k ∈ List.range (vs.length * levs.length),
          ((fun k : Nat =>
              ((v :: vs).getD (k / levs.length) dv, levs.getD (k % levs.length) dl))
            ∘ (fun i : Nat => levs.length + i)) k
            = (vs.getD (k / levs.length) dv, levs.getD (k % levs.length) dl) := by
        intro k hk
        rw [List.mem_range] at hk
        have hL : 0 < levs.length := by
          rcases Nat.eq_zero_or_pos levs.length with h | h
          · rw [h, Nat.mul_zero] at hk; omega
          · exact h
        simp only [Function.comp_apply]
        rw [Nat.add_comm levs.length k, Nat.add_div_right _ hL, Nat.add_mod_right,
          List.getD_cons_succ]
      exact (List.map_congr_left h2).trans ih

/-- `multiIndexFromProduct` is Mathlib's list product. -/
theorem multiIndexFromProduct_eq_sprod {V L : Type} (vars : List V) (levs : List L) :
    multiIndexFromProduct vars levs = vars ×ˢ levs := rfl

/-- Every row of `deleteRows` is a row of the input at an index that was not
flagged. -/
theorem mem_deleteRows {a : List (List (Option ℚ))} {bad : Nat → Bool}
    {row : List (Option ℚ)} (h : row ∈ deleteRows a bad) :
    ∃ i, i < a.length ∧ bad i = false ∧ row = a.getD i [] := by
  unfold deleteRows at h
  simp only [List.mem_map, List.mem_filter, List.mem_range] at h
  obtain ⟨i, ⟨hi, hb⟩, hrow⟩ := h
  exact ⟨i, hi, by simpa using hb, hrow.symm⟩

/-- `np.delete` with no flagged index is the identity. -/
theorem deleteRows_all_kept {a : List (List (Option ℚ))} {bad : Nat → Bool}
    (h : ∀ i, i < a.length → bad i = false) : deleteRows a bad = a := by
  unfold deleteRows
  have hf : (List.range a.length).filter (fun i => !bad i) = List.range a.length := by
    apply List.filter_eq_self.mpr
    intro i hi
    rw [List.mem_range] at hi
    simp [h i hi]
  rw [hf, range_map_getD]

/-- An empty row never triggers removal (numpy's empty mean is NaN and
compares false; an empty row holds no NaN). -/
theorem rowBad_nil (thr : Option ℚ) : rowBad thr [] = false := by
  cases thr <;> rfl

/-- In-range `getD` reads are members of the list. -/
theorem getD_mem_of_lt {a : List (List (Option ℚ))} {i : Nat}
    (h : i < a.length) : a.getD i [] ∈ a := by
  rw [List.getD_eq_getElem a [] h]
  exact List.getElem_mem h

/-- Rows surviving the predictor-side deletion never trigger removal again. -/
theorem deleteRows_rows_good_fst (p1 t1 : List (List (Option ℚ)))
    (thr : Option ℚ) (i : Nat) :
    rowBad thr ((deleteRows p1 (isBad p1 t1 thr)).getD i []) = false := by
  by_cases hi : i < (deleteRows p1 (isBad p1 t1 thr)).length
  · obtain ⟨j, hj, hb, hrow⟩ := mem_deleteRows (getD_mem_of_lt hi)
    rw [hrow]
    unfold isBad at hb
    exact (Bool.or_eq_false_iff.mp hb).1
  · rw [List.getD_eq_default _ _ (le_of_not_lt hi)]
    exact rowBad_nil thr

/-- Rows surviving the target-side deletion never trigger removal again. -/
theorem deleteRows_rows_good_snd (p1 t1 : List (List (Option ℚ)))
    (thr : Option ℚ) (i : Nat) :
    rowBad thr ((deleteRows t1 (isBad p1 t1 thr)).getD i []) = false := by
  by_cases hi : i < (deleteRows t1 (isBad p1 t1 thr)).length
  · obtain ⟨j, hj, hb, hrow⟩ := mem_deleteRows (getD_mem_of_lt hi)
    rw [hrow]
    unfold isBad at hb
    exact (Bool.or_eq_false_iff.mp hb).2
  · rw [List.getD_eq_default _ _ (le_of_not_lt hi)]
    exact rowBad_nil thr

/-- The large-value cutoff is a projection: applying it twice equals applying
it once. -/
theorem bigMask_idem (v : Option ℚ) : bigMask (bigMask v) = bigMask v := by
  cases v with
  | none => rfl
  | some q =>
    by_cases h : bigFill < q ∨ q < -bigFill
    · simp [bigMask, h]
    · simp [bigMask, h]

/-- Mapping a function that fixes every member of a list is the identity. -/
theorem map_fix_of_mem {α : Type} (f : α → α) :
    ∀ l : List α, (∀ x ∈ l, f x = x) → l.map f = l
  | [], _ => rfl
  | a :: l, h => by
    rw [List.map_cons, h a (by simp),
      map_fix_of_mem f l fun x hx => h x (by simp [hx])]

/-- Reading a row of the large-fill image is masking the original row. -/
theorem applyLargeFill_getD (a : List (List (Option ℚ))) (i : Nat) :
    (applyLargeFill a).getD i [] = (a.getD i []).map bigMask := by
  by_cases hi : i < a.length
  · unfold applyLargeFill
    rw [List.getD_eq_getElem _ _ (by simpa using hi), List.getElem_map,
      List.getD_eq_getElem _ _ hi]
  · unfold applyLargeFill
    rw [List.getD_eq_default _ _ (by simpa using le_of_not_lt hi),
      List.getD_eq_default _ _ (le_of_not_lt hi)]
    rfl

/-- The large-fill conversion fixes any list whose rows are already masked. -/
theorem applyLargeFill_fix (X : List (List (Option ℚ)))
    (hX : ∀ row ∈ X, row.map bigMask = row) : applyLargeFill X = X :=
  map_fix_of_mem _ X hX

/-- Rows surviving a deletion from a masked array are themselves masked. -/
theorem applyLargeFill_deleteRows (p : List (List (Option ℚ))) (bad : Nat → Bool) :
    applyLargeFill (deleteRows (applyLargeFill p) bad) =
      deleteRows (applyLargeFill p) bad := by
  apply applyLargeFill_fix
  intro row hrow
  obtain ⟨j, hj, _, hr⟩ := mem_deleteRows hrow
  rw [hr, applyLargeFill_getD, List.map_map]
  exact List.map_congr_left fun x _ => bigMask_idem x

/-! ## Claims -/

/-- C2: In `predict`, the effective step size `es` is determined solely by the
model input time-step count `IN`, the output count `OUT` and
`prefer_first_times`: if `OUT ≤ IN` then `es = OUT` (keep-inputs mode); if
`OUT > IN` and `prefer_first_times` then `es = IN` and only the first `IN`
output time steps seed the next input; if `OUT > IN` and not
`prefer_first_times` then `es = OUT` and the last `IN` output time steps seed
the next input. -/
theorem C2_effective_step_size (IN OUT : Nat) (pft : Bool) (r : List ℚ)
    (hr : r.length = OUT) :
    (OUT ≤ IN →
      (stepModeParams IN OUT pft).1 = true ∧ (stepModeParams IN OUT pft).2.1 = OUT) ∧
    (IN < OUT → pft = true →
      (stepModeParams IN OUT pft).1 = false ∧ (stepModeParams IN OUT pft).2.1 = IN ∧
      (seedTimes IN pft r).length = IN ∧
      ∀ i, i < IN → (seedTimes IN pft r).getD i 0 = r.getD i 0) ∧
    (IN < OUT → pft = false →
      (stepModeParams IN OUT pft).1 = false ∧ (stepModeParams IN OUT pft).2.1 = OUT ∧
      (seedTimes IN pft r).length = IN ∧
      ∀ i, i < IN → (seedTimes IN pft r).getD i 0 = r.getD (OUT - IN + i) 0) := by
  refine ⟨fun h => ?_, fun h hp => ?_, fun h hp => ?_⟩
  · rw [stepModeParams_fst, stepModeParams_es]
    simp [h]
  · rw [stepModeParams_fst, stepModeParams_es]
    refine ⟨by simp [Nat.not_le.mpr h], by simp [Nat.not_le.mpr h, hp], ?_, ?_⟩
    · simp [seedTimes, hp, hr]
      omega
    · intro i hi
      simp only [seedTimes, hp, if_pos]
      rw [List.getD_eq_getElem?_getD, List.getD_eq_getElem?_getD,
        List.getElem?_take_of_lt hi]
  · rw [stepModeParams_fst, stepModeParams_es]
    refine ⟨by simp [Nat.not_le.mpr h], by simp [Nat.not_le.mpr h, hp], ?_, ?_⟩
    · simp [seedTimes, hp, hr]
      omega
    · intro i hi
      simp only [seedTimes, hp, Bool.false_eq_true, if_false, hr]
      rw [List.getD_eq_getElem?_getD, List.getD_eq_getElem?_getD, List.getElem?_drop]

/-- C2 witness at `IN = 1`, `OUT = 2`, `prefer_first_times = true`,
`r = [5, 7]`. -/
theorem C2_effective_step_size_witness :
    (2 ≤ 1 →
      (stepModeParams 1 2 true).1 = true ∧ (stepModeParams 1 2 true).2.1 = 2) ∧
    (1 < 2 → true = true →
      (stepModeParams 1 2 true).1 = false ∧ (stepModeParams 1 2 true).2.1 = 1 ∧
      (seedTimes 1 true [5, 7]).length = 1 ∧
      ∀ i, i < 1 → (seedTimes 1 true [5, 7]).getD i 0 = ([5, 7] : List ℚ).getD i 0) ∧
    (1 < 2 → true = false →
      (stepModeParams 1 2 true).1 = false ∧ (stepModeParams 1 2 true).2.1 = 2 ∧
      (seedTimes 1 true [5, 7]).length = 1 ∧
      ∀ i, i < 1 → (seedTimes 1 true [5, 7]).getD i 0 = ([5, 7] : List ℚ).getD (2 - 1 + i) 0) :=
  C2_effective_step_size 1 2 true [5, 7] rfl

/-- C4: For a raw dataset with `N` time points and a selection of variables,
`Preprocessor.data_to_samples` produces exactly `N - 1` (predictor, target)
sample pairs, and for every `i` in `0..N-2` the predictor at sample `i` is the
selected source grid at time `i` while the target is the grid at time
`i + 1`. -/
theorem C4_sample_pairs {V G : Type} (N : Nat) (vars : List V)
    (ds : V → Nat → G) (d : List G) :
    (data_to_samples N vars ds).1.length = N - 1 ∧
    (data_to_samples N vars ds).2.length = N - 1 ∧
    (∀ i, i < N - 1 →
      (data_to_samples N vars ds).1.getD i d = vars.map fun v => ds v i) ∧
    (∀ i, i < N - 1 →
      (data_to_samples N vars ds).2.getD i d = vars.map fun v => ds v (i + 1)) := by
  refine ⟨by simp [data_to_samples], by simp [data_to_samples], ?_, ?_⟩
  · intro i hi
    exact getD_range_map d _ hi
  · intro i hi
    exact getD_range_map d _ hi

/-- C4 witness: 10 synthetic time points and two variables of the concrete
dataset `demoDs` give 9 pairs with the stated contents. -/
theorem C4_sample_pairs_witness :
    (data_to_samples 10 [0, 1] demoDs).1.length = 10 - 1 ∧
    (data_to_samples 10 [0, 1] demoDs).2.length = 10 - 1 ∧
    (∀ i, i < 10 - 1 →
      (data_to_samples 10 [0, 1] demoDs).1.getD i [] = [0, 1].map fun v => demoDs v i) ∧
    (∀ i, i < 10 - 1 →
      (data_to_samples 10 [0, 1] demoDs).2.getD i [] = [0, 1].map fun v => demoDs v (i + 1)) :=
  C4_sample_pairs 10 [0, 1] demoDs []

/-- C6 counterexample: with the duplicated output selection `["a", "a"]` and
input selection `["a"]`, the overlap set has 2 entries, exceeding the smaller
selection size 1, so the claimed bound fails as stated. -/
theorem C6_overlap_counterexample :
    ¬ ((outputs_in_inputs ["a", "a"] ["a"]).length ≤
        min (["a", "a"] : List String).length (["a"] : List String).length) := by
  decide

/-- C6 (amended): every label of the overlap set `_outputs_in_inputs` occurs
in both the output and the input selection, and the overlap size never
exceeds the output selection's size; when the output selection holds no
duplicate labels the overlap size also never exceeds the smaller of the two
selection sizes. -/
theorem C6_overlap_sound {V : Type} [DecidableEq V] (osel isel : List V) :
    (∀ v ∈ outputs_in_inputs osel isel, v ∈ osel ∧ v ∈ isel) ∧
    (outputs_in_inputs osel isel).length ≤ osel.length ∧
    (osel.Nodup →
      (outputs_in_inputs osel isel).length ≤ min osel.length isel.length) := by
  refine ⟨?_, List.length_filter_le _ _, fun hn => ?_⟩
  · intro v hv
    unfold outputs_in_inputs at hv
    rw [List.mem_filter] at hv
    exact ⟨hv.1, by simpa using hv.2⟩
  · have hnodup : (outputs_in_inputs osel isel).Nodup := hn.filter _
    have hsub : ∀ v ∈ outputs_in_inputs osel isel, v ∈ isel := by
      intro v hv
      unfold outputs_in_inputs at hv
      rw [List.mem_filter] at hv
      simpa using hv.2
    have h1 : (outputs_in_inputs osel isel).length ≤ isel.length := by
      calc (outputs_in_inputs osel isel).length
          = (outputs_in_inputs osel isel).toFinset.card := (List.toFinset_card_of_nodup hnodup).symm
        _ ≤ isel.toFinset.card := by
            apply Finset.card_le_card
            intro v hv
            rw [List.mem_toFinset] at hv
            rw [List.mem_toFinset]
            exact hsub v hv
        _ ≤ isel.length := isel.toFinset_card_le
    exact le_min (List.length_filter_le _ _) h1

/-- C6 witness: the amended bound applied to the duplicate-free selections
`["a", "b"]` and `["b", "c"]`. -/
theorem C6_overlap_sound_witness :
    (outputs_in_inputs ["a", "b"] ["b", "c"]).length ≤
      min (["a", "b"] : List String).length (["b", "c"] : List String).length :=
  (C6_overlap_sound ["a", "b"] ["b", "c"]).2.2 (by decide)

/-- C5: For a dataset using separate variable and level axes, composing the
Feature Selector's compound labelling order (variable-major meshgrid
flattening) with the Output Assembler's unstacking order
(`MultiIndex.from_product`) matches position by position, and, for
duplicate-free selections, yields exactly the set of (variable, level) pairs
of the selection, with no pair lost and none duplicated. -/
theorem C5_varlev_roundtrip {V L : Type} (dv : V) (dl : L)
    (vars : List V) (levs : List L) (hv : vars.Nodup) (hl : levs.Nodup) :
    meshgridVarlev dv dl vars levs = multiIndexFromProduct vars levs ∧
    (multiIndexFromProduct vars levs).Nodup ∧
    ∀ pr : V × L, pr ∈ multiIndexFromProduct vars levs ↔ pr.1 ∈ vars ∧ pr.2 ∈ levs := by
  refine ⟨meshgridVarlev_eq_product dv dl vars levs, ?_, ?_⟩
  · rw [multiIndexFromProduct_eq_sprod]
    exact hv.product hl
  · intro pr
    rw [multiIndexFromProduct_eq_sprod]
    obtain ⟨a, b⟩ := pr
    exact List.mem_product

/-- C5 witness at the two-variable, two-level selection
`["a", "b"] x ["x", "y"]`. -/
theorem C5_varlev_roundtrip_witness :
    meshgridVarlev "z" "w" ["a", "b"] ["x", "y"] =
      multiIndexFromProduct ["a", "b"] ["x", "y"] ∧
    (multiIndexFromProduct ["a", "b"] ["x", "y"]).Nodup ∧
    ∀ pr : String × String,
      pr ∈ multiIndexFromProduct ["a", "b"] ["x", "y"] ↔
        pr.1 ∈ ["a", "b"] ∧ pr.2 ∈ ["x", "y"] :=
  C5_varlev_roundtrip "z" "w" ["a", "b"] ["x", "y"] (by decide) (by decide)

/-- C3 counterexample: on the concrete buffer `cBuf` (2 samples, 2 time
steps), the imputation write of the step loop with `es = 1` does not
overwrite the most recent time step of every sample with the sample mean:
sample 0 keeps its original value, because the source line `p_da[-es:] = ...`
slices the leading `sample` axis, not the `time_step` axis. -/
theorem C3_impute_counterexample :
    ¬ (∀ s, s < cBuf.ns →
        (imputeStep cBuf (meanAxis0 cBuf) 1).val s (cBuf.nt - 1) 0 =
          meanAxis0 cBuf (cBuf.nt - 1) 0) := by
  intro h
  have h0 := h 0 (by norm_num [cBuf])
  have hv : (imputeStep cBuf (meanAxis0 cBuf) 1).val 0 (cBuf.nt - 1) 0 = 0 := by
    simp only [imputeStep, assignTailAxis0, cBuf]
    norm_num
  have hm : meanAxis0 cBuf (cBuf.nt - 1) 0 = 1 := by
    simp only [meanAxis0, cBuf, List.range_succ, List.range_zero, List.map_append,
      List.map_cons, List.map_nil, List.nil_append, List.sum_cons, List.sum_nil]
    norm_num
  rw [hv, hm] at h0
  norm_num at h0

/-- C3 (amended): in every step-loop iteration with `impute=True`, before
feeding back model output, the most recent `es` samples of the rolling input
buffer — every feature, at every time step — are overwritten with the
per-time-step mean over the original sample axis computed once before the
loop began; buffer entries at earlier sample indices are not modified by the
imputation write. -/
theorem C3_impute_overwrites_last_samples (p : Arr3) (es : Nat)
    (hes : es ≤ p.ns) :
    (∀ s t f, p.ns - es ≤ s → s < p.ns →
      (imputeStep p (meanAxis0 p) es).val s t f = meanAxis0 p t f) ∧
    (∀ s t f, s < p.ns - es →
      (imputeStep p (meanAxis0 p) es).val s t f = p.val s t f) := by
  constructor
  · intro s t f h1 h2
    show (if p.ns - es ≤ s ∧ s < p.ns then meanAxis0 p t f else p.val s t f) =
      meanAxis0 p t f
    rw [if_pos ⟨h1, h2⟩]
  · intro s t f h1
    show (if p.ns - es ≤ s ∧ s < p.ns then meanAxis0 p t f else p.val s t f) =
      p.val s t f
    rw [if_neg (by omega)]

/-- C3 witness on the concrete buffer `cBuf` with `es = 1`. -/
theorem C3_impute_overwrites_last_samples_witness :
    (∀ s t f, cBuf.ns - 1 ≤ s → s < cBuf.ns →
      (imputeStep cBuf (meanAxis0 cBuf) 1).val s t f = meanAxis0 cBuf t f) ∧
    (∀ s t f, s < cBuf.ns - 1 →
      (imputeStep cBuf (meanAxis0 cBuf) 1).val s t f = cBuf.val s t f) :=
  C3_impute_overwrites_last_samples cBuf 1 (by decide)

/-- `predict` with `keep_time_dim = True`: the assembled result in closed
form. -/
theorem predict_ktd_eq (modelF : List ℚ → List ℚ) (gen : Unit → GenInfo)
    (IN OUT : Nat) (dt steps : Int) (impute pft : Bool)
    (hIN : 1 ≤ IN) (hOUT : 1 ≤ OUT) (hdt : 1 ≤ dt) (hst : 1 ≤ steps) :
    predict modelF gen IN OUT dt steps impute true pft =
      Except.ok
        ⟨[steps.toNat, (gen ()).nsamp, OUT, (gen ()).nf, (gen ()).nlat, (gen ()).nlon],
          arange dt
            (((steps.toNat * (stepModeParams IN OUT pft).2.1 + 1 : Nat) : Int) * dt)
            (((stepModeParams IN OUT pft).2.1 : Int) * dt),
          ["f_hour", "time", "time_step", "varlev", "lat", "lon"]⟩ := by
  have hes : 1 ≤ (stepModeParams IN OUT pft).2.1 := by
    rw [stepModeParams_es]; split_ifs <;> omega
  have hlen := arangeLen_ktd dt hdt steps.toNat _ hes
  unfold predict
  rw [if_neg (by omega)]
  simp only [mkDataArray, List.headD_cons]
  rw [if_pos trivial, if_pos hlen]

/-- `predict` with `keep_time_dim = False` (collapsed time series): the
assembled result in closed form. -/
theorem predict_collapsed_eq (modelF : List ℚ → List ℚ) (gen : Unit → GenInfo)
    (IN OUT : Nat) (dt steps : Int) (impute pft : Bool)
    (hIN : 1 ≤ IN) (hOUT : 1 ≤ OUT) (hdt : 1 ≤ dt) (hst : 1 ≤ steps) :
    predict modelF gen IN OUT dt steps impute false pft =
      Except.ok
        ⟨[steps.toNat * (stepModeParams IN OUT pft).2.1,
            (gen ()).nsamp, (gen ()).nf, (gen ()).nlat, (gen ()).nlon],
          (List.range (steps.toNat * (stepModeParams IN OUT pft).2.1)).map
            fun i : Nat => ((i : Int) + 1) * dt,
          ["f_hour", "time", "varlev", "lat", "lon"]⟩ := by
  unfold predict
  rw [if_neg (by omega)]
  simp only [mkDataArray]
  rw [if_neg (show ¬ ((false : Bool) = true) by simp)]
  by_cases hki : OUT ≤ IN
  · have h1 : (stepModeParams IN OUT pft).1 = true := by
      rw [stepModeParams_fst]; simp [hki]
    have h2 : (stepModeParams IN OUT pft).2.1 = OUT := by
      rw [stepModeParams_es]; simp [hki]
    have harange := arange_collapsed dt hdt (steps.toNat * OUT)
    rw [h1, h2]
    rw [if_neg (show ¬ ((!true && pft) = true) by simp)]
    simp only [transpose021, collapse01, List.headD_cons]
    rw [harange]
    rw [if_pos (show (List.map (fun i : Nat => ((i : Int) + 1) * dt)
      (List.range (steps.toNat * OUT))).length = steps.toNat * OUT by simp)]
  · by_cases hp : pft = true
    · have h1 : (stepModeParams IN OUT pft).1 = false := by
        rw [stepModeParams_fst]; simp [hki]
      have h2 : (stepModeParams IN OUT pft).2.1 = IN := by
        rw [stepModeParams_es]; simp [hki, hp]
      have harange := arange_collapsed dt hdt (steps.toNat * IN)
      have hmin : min IN OUT = IN := Nat.min_eq_left (le_of_lt (Nat.not_le.mp hki))
      rw [h1, h2, hp]
      rw [if_pos (show (!false && true) = true by simp)]
      simp only [truncAxis2, transpose021, collapse01, List.headD_cons]
      rw [hmin, harange]
      rw [if_pos (show (List.map (fun i : Nat => ((i : Int) + 1) * dt)
        (List.range (steps.toNat * IN))).length = steps.toNat * IN by simp)]
    · have h1 : (stepModeParams IN OUT pft).1 = false := by
        rw [stepModeParams_fst]; simp [hki]
      have h2 : (stepModeParams IN OUT pft).2.1 = OUT := by
        rw [stepModeParams_es]; simp [hki, hp]
      have harange := arange_collapsed dt hdt (steps.toNat * OUT)
      rw [Bool.not_eq_true] at hp
      rw [h1, h2, hp]
      rw [if_neg (show ¬ ((!false && false) = true) by simp)]
      simp only [transpose021, collapse01, List.headD_cons]
      rw [harange]
      rw [if_pos (show (List.map (fun i : Nat => ((i : Int) + 1) * dt)
        (List.range (steps.toNat * OUT))).length = steps.toNat * OUT by simp)]

/-- C1: For every valid estimator (positive `IN`, `OUT` and sample spacing
`dt`) and every `steps = k ≥ 1`, the labelled array returned by `predict`
has a leading axis with exactly `k` entries when `keep_time_dim` is true and
exactly `k * es` entries when collapsed, where `es` is the effective step
size of the chosen reconciliation mode; in the collapsed case the
`forecast_hour` coordinate is the regular sequence `dt, 2*dt, ...,
steps*es*dt` in increments of `dt`. -/
theorem C1_predict_leading_axis (modelF : List ℚ → List ℚ) (gen : Unit → GenInfo)
    (IN OUT : Nat) (dt steps : Int) (impute keep_time_dim prefer_first_times : Bool)
    (hIN : 1 ≤ IN) (hOUT : 1 ≤ OUT) (hdt : 1 ≤ dt) (hst : 1 ≤ steps) :
    ∃ res : LabeledResult,
      predict modelF gen IN OUT dt steps impute keep_time_dim prefer_first_times =
        Except.ok res ∧
      res.f_hour.length = res.shape.headD 0 ∧
      (keep_time_dim = true → res.shape.headD 0 = steps.toNat) ∧
      (keep_time_dim = false →
        res.shape.headD 0 =
          steps.toNat * (stepModeParams IN OUT prefer_first_times).2.1 ∧
        res.f_hour =
          (List.range
              (steps.toNat * (stepModeParams IN OUT prefer_first_times).2.1)).map
            fun i : Nat => ((i : Int) + 1) * dt) := by
  cases keep_time_dim with
  | true =>
    refine ⟨_, predict_ktd_eq modelF gen IN OUT dt steps impute prefer_first_times
      hIN hOUT hdt hst, ?_, ?_, ?_⟩
    · have hes : 1 ≤ (stepModeParams IN OUT prefer_first_times).2.1 := by
        rw [stepModeParams_es]; split_ifs <;> omega
      exact arangeLen_ktd dt hdt steps.toNat _ hes
    · intro _; rfl
    · intro h; exact absurd h (by simp)
  | false =>
    refine ⟨_, predict_collapsed_eq modelF gen IN OUT dt steps impute
      prefer_first_times hIN hOUT hdt hst, ?_, ?_, ?_⟩
    · simp
    · intro h; exact absurd h (by simp)
    · intro _; exact ⟨rfl, rfl⟩

/-- C1 witness: `IN = 2`, `OUT = 1`, `dt = 6`, `steps = 3`, collapsed output
(the scenario of the spec: keep-inputs mode, `es = 1`). -/
theorem C1_predict_leading_axis_witness :
    ∃ res : LabeledResult,
      predict idModel demoGen 2 1 6 3 false false true = Except.ok res ∧
      res.f_hour.length = res.shape.headD 0 ∧
      (false = true → res.shape.headD 0 = (3 : Int).toNat) ∧
      (false = false →
        res.shape.headD 0 = (3 : Int).toNat * (stepModeParams 2 1 true).2.1 ∧
        res.f_hour =
          (List.range ((3 : Int).toNat * (stepModeParams 2 1 true).2.1)).map
            fun i : Nat => ((i : Int) + 1) * 6) :=
  C1_predict_leading_axis idModel demoGen 2 1 6 3 false false true
    (by decide) (by decide) (by decide) (by decide)

/-- C9: Invalid numeric arguments are rejected immediately with a value
error and no partial result: `predict` fails whenever `steps < 1` — whatever
the model and generator do, so before either is invoked — and
`delete_nan_samples` fails whenever a non-`None` threshold lies outside
`[0, 1]`, with the caller's arrays left untouched. -/
theorem C9_invalid_args_rejected (modelF : List ℚ → List ℚ) (gen : Unit → GenInfo)
    (IN OUT : Nat) (dt steps : Int) (impute ktd pft : Bool)
    (p t : List (List (Option ℚ))) (lfv : Bool) (tau : ℚ)
    (hs : steps < 1) (ht : tau < 0 ∨ 1 < tau) :
    predict modelF gen IN OUT dt steps impute ktd pft =
      Except.error "must use positive integer for steps" ∧
    delete_nan_samples p t lfv (some tau) =
      ((p, t), Except.error "threshold must be between 0 and 1") := by
  constructor
  · unfold predict
    rw [if_pos hs]
  · have hvt : validThr (some tau) = false := by
      simp only [validThr, decide_eq_false_iff_not]
      rintro ⟨h1, h2⟩
      rcases ht with h | h <;> linarith
    unfold delete_nan_samples
    rw [hvt]
    rw [if_neg (by simp)]

/-- C9 witness at `steps = 0` and `threshold = 2`. -/
theorem C9_invalid_args_rejected_witness :
    predict idModel demoGen 1 1 1 0 false false false =
      Except.error "must use positive integer for steps" ∧
    delete_nan_samples [] [] false (some 2) =
      (([], []), Except.error "threshold must be between 0 and 1") :=
  C9_invalid_args_rejected idModel demoGen 1 1 1 0 false false false [] [] false 2
    (by norm_num) (Or.inr (by norm_num))

/-- C7: With `threshold = None` (and `large_fill_value` off), the samples
`delete_nan_samples` removes are exactly the indices at which either array's
flattened row holds a NaN; the same index set is removed from both arrays,
and every surviving row is an unchanged row of the input (same trailing
shape). -/
theorem C7_delete_nan_none (p t : List (List (Option ℚ)))
    (hlen : p.length = t.length) :
    (delete_nan_samples p t false none).2 =
      Except.ok
        (((List.range p.length).filter fun i => !isBad p t none i).map
            fun i => p.getD i [],
         ((List.range p.length).filter fun i => !isBad p t none i).map
            fun i => t.getD i []) ∧
    ∀ i, isBad p t none i = true ↔
      ((∃ v ∈ p.getD i [], v = none) ∨ (∃ v ∈ t.getD i [], v = none)) := by
  constructor
  · have h0 : validThr none = true := rfl
    unfold delete_nan_samples
    rw [if_pos h0]
    simp only [Bool.false_eq_true, if_false]
    unfold deleteRows
    rw [← hlen]
  · intro i
    simp only [isBad, rowBad, rowHasNan, Bool.or_eq_true, List.any_eq_true,
      Option.isNone_iff_eq_none]

/-- C7 witness: of two samples, the second holds a NaN in the predictors, so
exactly that index is removed from both arrays. -/
theorem C7_delete_nan_none_witness :
    (delete_nan_samples [[some 1], [none]] [[some 0], [some 0]] false none).2 =
      Except.ok
        (((List.range ([[some 1], [none]] : List (List (Option ℚ))).length).filter
            fun i => !isBad [[some 1], [none]] [[some 0], [some 0]] none i).map
            fun i => ([[some 1], [none]] : List (List (Option ℚ))).getD i [],
         ((List.range ([[some 1], [none]] : List (List (Option ℚ))).length).filter
            fun i => !isBad [[some 1], [none]] [[some 0], [some 0]] none i).map
            fun i => ([[some 0], [some 0]] : List (List (Option ℚ))).getD i []) ∧
    ∀ i, isBad [[some 1], [none]] [[some 0], [some 0]] none i = true ↔
      ((∃ v ∈ ([[some 1], [none]] : List (List (Option ℚ))).getD i [], v = none) ∨
       (∃ v ∈ ([[some 0], [some 0]] : List (List (Option ℚ))).getD i [], v = none)) :=
  C7_delete_nan_none [[some 1], [none]] [[some 0], [some 0]] rfl

/-- C8: `delete_nan_samples` is idempotent for a fixed threshold and
`large_fill_value` setting: applied to the arrays it returned, it returns
exactly the same arrays again. -/
theorem C8_delete_nan_idempotent (p t p2 t2 : List (List (Option ℚ)))
    (lfv : Bool) (thr : Option ℚ) (hlen : p.length = t.length)
    (h : (delete_nan_samples p t lfv thr).2 = Except.ok (p2, t2)) :
    (delete_nan_samples p2 t2 lfv thr).2 = Except.ok (p2, t2) := by
  by_cases hv : validThr thr = true
  · unfold delete_nan_samples at h
    rw [if_pos hv] at h
    simp only [Except.ok.injEq, Prod.mk.injEq] at h
    obtain ⟨hp2, ht2⟩ := h
    have hp2fix : (if lfv then applyLargeFill p2 else p2) = p2 := by
      cases lfv with
      | false => rfl
      | true =>
        simp only [if_true]
        rw [← hp2]
        simp only [if_true] at hp2 ht2 ⊢
        exact applyLargeFill_deleteRows p _
    have ht2fix : (if lfv then applyLargeFill t2 else t2) = t2 := by
      cases lfv with
      | false => rfl
      | true =>
        simp only [if_true]
        rw [← ht2]
        simp only [if_true] at hp2 ht2 ⊢
        exact applyLargeFill_deleteRows t _
    have hbad : ∀ i, isBad p2 t2 thr i = false := by
      intro i
      unfold isBad
      rw [Bool.or_eq_false_iff]
      constructor
      · rw [← hp2]
        exact deleteRows_rows_good_fst _ _ thr i
      · rw [← ht2]
        exact deleteRows_rows_good_snd _ _ thr i
    unfold delete_nan_samples
    rw [if_pos hv]
    simp only [hp2fix, ht2fix]
    rw [deleteRows_all_kept fun i _ => hbad i,
      deleteRows_all_kept fun i _ => hbad i]
  · exfalso
    unfold delete_nan_samples at h
    rw [if_neg hv] at h
    simp at h

/-- C8 witness: a concrete pair whose single application removes the
NaN-bearing sample, on which the second application is the identity. -/
theorem C8_delete_nan_idempotent_witness :
    (delete_nan_samples [[some 1]] [[some 5]] false none).2 =
      Except.ok ([[some 1]], [[some 5]]) :=
  C8_delete_nan_idempotent [[some 1], [none]] [[some 5], [some 6]]
    [[some 1]] [[some 5]] false none rfl (by rfl)

/-- C10: With `large_fill_value=True` (and an accepted threshold),
`delete_nan_samples` mutates the caller's arrays in place: after the call the
original arrays hold the large-fill image in which every value of magnitude
greater than `1e30` has become NaN, NaNs stay NaN and in-range values are
untouched — in addition to the reduced copies being returned; with
`large_fill_value=False` the caller's arrays are left unchanged. -/
theorem C10_large_fill_frame (p t : List (List (Option ℚ))) (thr : Option ℚ)
    (hthr : validThr thr = true) :
    (delete_nan_samples p t true thr).1 = (applyLargeFill p, applyLargeFill t) ∧
    (∃ r, (delete_nan_samples p t true thr).2 = Except.ok r) ∧
    (delete_nan_samples p t false thr).1 = (p, t) ∧
    (∀ q : ℚ, bigFill < q ∨ q < -bigFill → bigMask (some q) = none) ∧
    (∀ q : ℚ, -bigFill ≤ q → q ≤ bigFill → bigMask (some q) = some q) ∧
    bigMask none = none := by
  refine ⟨?_, ?_, ?_, ?_, ?_, rfl⟩
  · unfold delete_nan_samples
    rw [if_pos hthr]
    simp
  · unfold delete_nan_samples
    rw [if_pos hthr]
    exact ⟨_, rfl⟩
  · unfold delete_nan_samples
    rw [if_pos hthr]
    simp
  · intro q hq
    simp only [bigMask]
    rw [if_pos hq]
  · intro q h1 h2
    simp only [bigMask]
    rw [if_neg (not_or.mpr ⟨not_lt.mpr h2, not_lt.mpr h1⟩)]

/-- C10 witness: one oversized value, one NaN and one ordinary value, with
`threshold = None`. -/
theorem C10_large_fill_frame_witness :
    (delete_nan_samples [[some (bigFill + 1), none], [some 1]] [] true none).1 =
      (applyLargeFill [[some (bigFill + 1), none], [some 1]], applyLargeFill []) ∧
    (∃ r, (delete_nan_samples [[some (bigFill + 1), none], [some 1]] [] true none).2 =
      Except.ok r) ∧
    (delete_nan_samples [[some (bigFill + 1), none], [some 1]] [] false none).1 =
      ([[some (bigFill + 1), none], [some 1]], []) ∧
    (∀ q : ℚ, bigFill < q ∨ q < -bigFill → bigMask (some q) = none) ∧
    (∀ q : ℚ, -bigFill ≤ q → q ≤ bigFill → bigMask (some q) = some q) ∧
    bigMask none = none :=
  C10_large_fill_frame [[some (bigFill + 1), none], [some 1]] [] none rfl

end DLWP
